import Mathlib

/-!
Verification of the TryOnAI repository: a shallow embedding of the
frontend demo-page logic (frontend/app/demo/page.tsx and the PhotoUpload
component) and of the session-processing backend described by the
architecture documents of the repository, together with theorems settling
the claims of the specification.
-/

namespace TryOnAI

/-! ### Frontend: files and browser state -/

/-- A browser `File` object as the upload handlers see it:
`name`, MIME `type`, and `size` in bytes. -/
structure JsFile where
  name : String
  type : String
  size : Nat
  deriving Repr, DecidableEq

/-- Model of `URL.createObjectURL(file)` in `PhotoUpload.handleFileChange`:
an opaque blob URL derived from the file. -/
def createObjectURL (f : JsFile) : String :=
  "blob:" ++ f.name

/-- Model of `PhotoUpload.handleFileChange` (components/demo/photo-upload.tsx):
takes `e.target.files`, returns the `onPhotoSelect` callback invocation,
`none` when the handler returns early without invoking the callback.
Source order: missing file, then MIME check `file.type.startsWith("image/")`,
then size check `file.size > 10 * 1024 * 1024`. -/
def handleFileChange (files : List JsFile) : Option (JsFile × String) :=
  match files.head? with
  | none => none
  | some file =>
    if !(file.type.startsWith "image/") then none
    else if file.size > 10 * 1024 * 1024 then none
    else some (file, createObjectURL file)

/-- The slice of `DemoPage` component state touched by
`handleHiddenFileChange`: `userPhoto`, `userFile`, the `localStorage`
key-value pairs, and the `pendingTryOnRef` product id. -/
structure PageState where
  userPhoto : Option String
  userFile : Option JsFile
  localStore : List (String × String)
  pendingTryOn : Option String
  deriving Repr, DecidableEq

/-- Model of `localStorage.setItem k v`: replace the value at `k`, or append. -/
def setItem (k v : String) (m : List (String × String)) :
    List (String × String) :=
  if m.any (fun p => p.1 == k) then
    m.map (fun p => if p.1 == k then (k, v) else p)
  else m ++ [(k, v)]

/-- Model of `DemoPage.handleHiddenFileChange` (frontend/app/demo/page.tsx):
guards in source order (`!file`, MIME not starting with `"image/"`,
`size > 10 * 1024 * 1024`), then reads the file as a data URL
(`dataUrlOf` models `FileReader.readAsDataURL`), writes the
`tryonai_user_photo` localStorage key, sets `userPhoto`/`userFile`, and
consumes any pending try-on product. -/
def handleHiddenFileChange (files : List JsFile)
    (dataUrlOf : JsFile → String) (st : PageState) : PageState :=
  match files.head? with
  | none => st
  | some file =>
    if !(file.type.startsWith "image/") then st
    else if file.size > 10 * 1024 * 1024 then st
    else
      let url := dataUrlOf file
      { userPhoto := some url
        userFile := some file
        localStore := setItem "tryonai_user_photo" url st.localStore
        pendingTryOn := none }

/-! ### Frontend: try-on results -/

/-- One entry of the `TryOnResultMap` persisted under `tryonai_results`. -/
structure ResultEntry where
  imageUrl : String
  sessionId : String
  timestamp : Int
  deriving Repr, DecidableEq

/-- The final status object returned by `TryOnAPIClient.pollSessionStatus`. -/
structure FinalStatus where
  status : String
  output_image_url : Option String
  error_reason : Option String
  deriving Repr, DecidableEq

/-- JavaScript truthiness of an optional string: `null`/`undefined` and
the empty string are falsy. -/
def jsTruthy : Option String → Bool
  | none => false
  | some s => !s.isEmpty

/-- JS object-spread update `{ ...prev, [k]: v }` on an ordered map. -/
def setEntry (k : String) (v : ResultEntry)
    (m : List (String × ResultEntry)) : List (String × ResultEntry) :=
  if m.any (fun p => p.1 == k) then
    m.map (fun p => if p.1 == k then (k, v) else p)
  else m ++ [(k, v)]

/-- The `results`/`processingProduct` slice of `DemoPage` state that
`processTryOn` updates. -/
structure DemoState where
  results : List (String × ResultEntry)
  processingProduct : Option String
  deriving Repr, DecidableEq

/-- Model of `DemoPage.processTryOn` (frontend/app/demo/page.tsx), from the point
where a user file is available: `outcome` is the result of the awaited
session-create-and-poll (`Except.error` models a thrown error caught by
the `catch` block; `Except.ok` carries the polled final status). The
results map gains `{imageUrl, sessionId, timestamp: Date.now()}` only when
`finalStatus.status.toLowerCase() === "completed"` and
`finalStatus.output_image_url` is truthy; the `finally` block resets
`processingProduct` to `null`. -/
def processTryOn (productId sessionId : String) (now : Int)
    (outcome : Except String FinalStatus) (st : DemoState) : DemoState :=
  match outcome with
  | Except.error _ => { st with processingProduct := none }
  | Except.ok fs =>
    if fs.status.toLower == "completed" && jsTruthy fs.output_image_url then
      { results :=
          setEntry productId
            ⟨fs.output_image_url.getD "", sessionId, now⟩ st.results
        processingProduct := none }
    else { st with processingProduct := none }

/-- The mount-time `useEffect` of `DemoPage` that restores saved try-on
results: `saved` is the raw `localStorage.getItem("tryonai_results")`
value after `JSON.parse` (`none` = key absent; `Except.error` = parse
threw, swallowed by the empty `catch`, leaving `results` at its initial
`{}`). Entries are kept when `now - v.timestamp < 24 * 60 * 60 * 1000`. -/
def loadResults (saved : Option (Except String (List (String × ResultEntry))))
    (now : Int) : List (String × ResultEntry) :=
  match saved with
  | none => []
  | some (Except.error _) => []
  | some (Except.ok parsed) =>
    parsed.filter (fun kv => now - kv.2.timestamp < 24 * 60 * 60 * 1000)

/-! ### Backend: session data model

The backend Python services (`app/crud.py`, `app/services/worker.py`,
`app/services/cleanup.py`, `app/services/storage.py`, `app/database.py`)
are described by the architecture and setup documents of the repository; the
definitions below are modelled from that specification. -/

/-- The four values of the session `status` enum
(`created / processing / completed / failed`); by construction no other
status value exists. Modelled from the spec: §3 data model. -/
inductive SessionStatus where
  | created
  | processing
  | completed
  | failed
  deriving Repr, DecidableEq

/-- Modelled from the spec: one row of the `tryon_sessions` table (§3,
ARCHITECTURE.md §6). Timestamps are abstract instants (`Nat`). -/
structure Session where
  user_token : String
  user_image_ref : String
  garment_image_ref : String
  output_image_ref : Option String
  status : SessionStatus
  error_reason : Option String
  created_at : Nat
  updated_at : Nat
  expires_at : Nat
  deriving Repr, DecidableEq

/-- Modelled from the spec: the shared persistent state — the session
rows keyed by id, the set of asset references present in storage, and the
id generator. -/
structure StoreState where
  sessions : List (Nat × Session)
  assets : List String
  nextId : Nat
  deriving Repr, DecidableEq

/-- Look a session up by id (first match). -/
def lookupSession (id : Nat) (st : StoreState) : Option Session :=
  (st.sessions.find? (fun p => p.1 == id)).map (·.2)

/-- The empty store at process start. -/
def initState : StoreState :=
  { sessions := [], assets := [], nextId := 0 }

/-- All asset references a session row holds (user, garment, and output
when non-null). -/
def sessionRefs (s : Session) : List String :=
  [s.user_image_ref, s.garment_image_ref] ++ s.output_image_ref.toList

/-! ### Backend: upload validation -/

/-- An uploaded image as validation sees it: byte size, extension, and
whether the bytes decode as an image (the Pillow `img.verify()` check). -/
structure UploadImage where
  size : Nat
  ext : String
  decodable : Bool
  deriving Repr, DecidableEq

/-- The extension/MIME allow-list: jpg, jpeg, png, webp. -/
def allowedExts : List String := ["jpg", "jpeg", "png", "webp"]

/-- Modelled from the spec: synchronous upload validation (§4.2, §6) —
size at most `maxBytes` (default 10 MB), extension in the allow-list,
successful decode. -/
def validImage (maxBytes : Nat) (img : UploadImage) : Bool :=
  img.size ≤ maxBytes && allowedExts.contains img.ext && img.decodable

/-- The default maximum upload size: 10 MB. -/
def defaultMaxBytes : Nat := 10 * 1024 * 1024

/-! ### Backend: lifecycle manager -/

/-- The errors `create` can surface: `validationError` for a bad upload,
`storageError` when asset persistence fails after the tentative row
write. -/
inductive CreateError where
  | validationError
  | storageError
  deriving Repr, DecidableEq

/-- Storage path of the user image of a session, keyed by id, role, ext. -/
def userRef (id : Nat) (ext : String) : String :=
  "users/" ++ toString id ++ "_user." ++ ext

/-- Storage path of the garment image of a session. -/
def garmentRef (id : Nat) (ext : String) : String :=
  "garments/" ++ toString id ++ "_garment." ++ ext

/-- Storage path of the output image of a session. -/
def outputRef (id : Nat) : String :=
  "outputs/" ++ toString id ++ "_output.jpg"

/-- Modelled from the spec: `create(userImage, garmentImage, token)`
(§4.2). Validates both images synchronously before touching the store;
on failure returns `validationError` with the store untouched. On
success writes the tentative `Created` row with
`expires_at = created_at + ttl`, then persists both assets
(`persistOk` models whether the Storage Service write succeeds); if
persistence fails the tentative row is removed before returning
`storageError`. Returns the new state and the session id on success. -/
def create (now ttl maxBytes : Nat) (userImg garmentImg : UploadImage)
    (token : String) (persistOk : Bool) (st : StoreState) :
    StoreState × Except CreateError Nat :=
  if !(validImage maxBytes userImg && validImage maxBytes garmentImg) then
    (st, Except.error CreateError.validationError)
  else
    let id := st.nextId
    let row : Session :=
      { user_token := token
        user_image_ref := userRef id userImg.ext
        garment_image_ref := garmentRef id garmentImg.ext
        output_image_ref := none
        status := SessionStatus.created
        error_reason := none
        created_at := now
        updated_at := now
        expires_at := now + ttl }
    let tentative : StoreState :=
      { st with sessions := (id, row) :: st.sessions, nextId := id + 1 }
    if persistOk then
      ({ tentative with
          assets := userRef id userImg.ext :: garmentRef id garmentImg.ext
            :: tentative.assets },
        Except.ok id)
    else
      -- asset persistence failed: remove the tentative row
      ({ st with nextId := id + 1 }, Except.error CreateError.storageError)

/-! ### Backend: processing worker -/

/-- Modelled from the spec: the worker picking up its dispatched session
(§4.3) — the durable `Created → Processing` write. The update is guarded
by the source status, matching the only state-machine edge into
`Processing`. -/
def workerStart (now id : Nat) (st : StoreState) : StoreState :=
  { st with
      sessions := st.sessions.map (fun p =>
        if p.1 == id && p.2.status == SessionStatus.created then
          (p.1, { p.2 with status := SessionStatus.processing,
                           updated_at := now })
        else p) }

/-- Modelled from the spec: the terminal write of the worker (§4.3).
Here `transform` is the outcome of the pluggable strategy: `Except.ok` carries the
produced output asset reference, `Except.error` the failure reason. One
atomic update sets `Completed` together with `output_image_ref` (and
stores the output asset), or `Failed` together with `error_reason`; it
applies only to a `Processing` session. -/
def workerFinish (now id : Nat) (transform : Except String String)
    (st : StoreState) : StoreState :=
  match lookupSession id st with
  | none => st
  | some s =>
    if s.status == SessionStatus.processing then
      match transform with
      | Except.ok out =>
        { st with
            sessions := st.sessions.map (fun p =>
              if p.1 == id then
                (p.1, { p.2 with status := SessionStatus.completed,
                                 output_image_ref := some out,
                                 updated_at := now })
              else p)
            assets := out :: st.assets }
      | Except.error reason =>
        { st with
            sessions := st.sessions.map (fun p =>
              if p.1 == id then
                (p.1, { p.2 with status := SessionStatus.failed,
                                 error_reason := some reason,
                                 updated_at := now })
              else p) }
    else st

/-! ### Backend: cleanup reaper -/

/-- Whether a session is expired at instant `now`. -/
def expiredAt (now : Nat) (s : Session) : Bool :=
  s.expires_at < now

/-- Modelled from the spec: one reaper run (§4.5) — for every session
with `expires_at < now`, delete every non-null asset reference it holds
(Storage Service delete is idempotent: a missing asset is skipped), then
delete the row. -/
def reap (now : Nat) (st : StoreState) : StoreState :=
  let deadRefs :=
    (st.sessions.filter (fun p => expiredAt now p.2)).flatMap
      (fun p => sessionRefs p.2)
  { st with
      sessions := st.sessions.filter (fun p => !expiredAt now p.2)
      assets := st.assets.filter (fun r => !deadRefs.contains r) }

/-! ### Backend: status view -/

/-- The error of a status query for an unknown session id. -/
inductive GetError where
  | notFound
  deriving Repr, DecidableEq

/-- Modelled from the spec: the fixed progress message per status (§4.2;
the `processing` and `completed` strings appear verbatim in
QUICK_START.md). -/
def progressMessage : SessionStatus → String
  | SessionStatus.created => "Session created. Waiting for processing..."
  | SessionStatus.processing => "AI is processing your try-on..."
  | SessionStatus.completed => "Try-on completed successfully!"
  | SessionStatus.failed => "Try-on failed."

/-- The view returned by `get(sessionId)` (§4.2, ARCHITECTURE.md §7). -/
structure SessionView where
  id : Nat
  status : SessionStatus
  user_image_url : String
  garment_image_url : String
  output_image_url : Option String
  error_reason : Option String
  progress_message : String
  deriving Repr, DecidableEq

/-- The view of one session row. -/
def viewOf (id : Nat) (s : Session) : SessionView :=
  { id := id
    status := s.status
    user_image_url := s.user_image_ref
    garment_image_url := s.garment_image_ref
    output_image_url := s.output_image_ref
    error_reason := s.error_reason
    progress_message := progressMessage s.status }

/-- Modelled from the spec: `get(sessionId) → view` (§4.2) — the view
when the id exists, `NotFoundError` otherwise. -/
def get (id : Nat) (st : StoreState) : Except GetError SessionView :=
  match lookupSession id st with
  | none => Except.error GetError.notFound
  | some s => Except.ok (viewOf id s)

/-! ### Backend: persistence backend selector -/

/-- The two storage engines (`postgresql` primary, `sqlite` fallback). -/
inductive BackendKind where
  | postgresql
  | sqlite
  deriving Repr, DecidableEq

/-- The database report of the health query: backend kind and connected flag. -/
structure Health where
  backend_kind : BackendKind
  connected : Bool
  deriving Repr, DecidableEq

/-- Modelled from the spec: the backend selector (§4.1,
DATABASE_FALLBACK_IMPLEMENTATION.md) — try the primary networked engine
within a bounded timeout (`primaryAvailable` is whether that attempt
succeeds); on failure fall back to the embedded engine. -/
def selectBackend (primaryAvailable : Bool) : BackendKind :=
  if primaryAvailable then BackendKind.postgresql else BackendKind.sqlite

/-- Modelled from the spec: process startup resolving the backend once;
`Except.error` would model a fatal startup failure, which never occurs —
backend unavailability triggers the fallback instead. -/
def startup (primaryAvailable : Bool) : Except String BackendKind :=
  Except.ok (selectBackend primaryAvailable)

/-- Modelled from the spec: the database section of the health query for the
selected (hence connected) backend. -/
def healthOf (b : BackendKind) : Health :=
  { backend_kind := b, connected := true }

/-! ### Backend: operation steps and reachability -/

/-- One operation of the system: a `create` call, a worker pickup, a
worker terminal write, or a reaper run. -/
inductive Step : StoreState → StoreState → Prop where
  | create (now ttl maxBytes : Nat) (u g : UploadImage) (token : String)
      (persistOk : Bool) (st : StoreState) :
      Step st (create now ttl maxBytes u g token persistOk st).1
  | workerStart (now id : Nat) (st : StoreState) :
      Step st (workerStart now id st)
  | workerFinish (now id : Nat) (transform : Except String String)
      (st : StoreState) :
      Step st (workerFinish now id transform st)
  | reap (now : Nat) (st : StoreState) :
      Step st (reap now st)

/-- States reachable from the empty store by the operations of the system. -/
inductive Reachable : StoreState → Prop where
  | init : Reachable initState
  | step {st st' : StoreState} : Reachable st → Step st st' → Reachable st'

/-! ### Store well-formedness and lookup lemmas -/

/-- Well-formedness of the store: every session id is below the id
generator and session ids are unique. -/
def WF (st : StoreState) : Prop :=
  (∀ p ∈ st.sessions, p.1 < st.nextId) ∧
  (st.sessions.map Prod.fst).Nodup

/-- The output/error field invariant: in every row,
`output_image_ref` is non-null exactly when the status is `Completed`
and `error_reason` is non-null exactly when the status is `Failed`. -/
def OutErrInv (st : StoreState) : Prop :=
  ∀ p ∈ st.sessions,
    (p.2.output_image_ref ≠ none ↔ p.2.status = SessionStatus.completed) ∧
    (p.2.error_reason ≠ none ↔ p.2.status = SessionStatus.failed)

/-- A successful lookup exhibits a member pair. -/
theorem lookup_mem {id : Nat} {st : StoreState} {s : Session}
    (h : lookupSession id st = some s) : (id, s) ∈ st.sessions := by
  unfold lookupSession at h
  cases hf : st.sessions.find? (fun p => p.1 == id) with
  | none => rw [hf] at h; exact absurd h (by simp)
  | some p =>
    rw [hf] at h
    obtain ⟨a, b⟩ := p
    simp only [Option.map] at h
    have hb : b = s := Option.some.inj h
    have ha : a = id := by simpa using List.find?_some hf
    have hm := List.mem_of_find?_eq_some hf
    rw [ha, hb] at hm
    exact hm

/-- With unique ids, a session id determines its row. -/
theorem pair_unique {st : StoreState}
    (hnd : (st.sessions.map Prod.fst).Nodup) {id : Nat} {x y : Session}
    (hx : (id, x) ∈ st.sessions) (hy : (id, y) ∈ st.sessions) : x = y := by
  have h := List.inj_on_of_nodup_map hnd hx hy rfl
  injection h

/-- Membership in a key-preserving row update comes from a source row
with the same id. -/
theorem mem_map_keyfix {g : Nat × Session → Nat × Session}
    (hg : ∀ p, (g p).1 = p.1) {l : List (Nat × Session)} {id : Nat}
    {b : Session} (h : (id, b) ∈ l.map g) :
    ∃ a, (id, a) ∈ l ∧ g (id, a) = (id, b) := by
  rcases List.mem_map.mp h with ⟨q, hq, hgq⟩
  obtain ⟨qi, qs⟩ := q
  have hqi : qi = id := by
    have := hg (qi, qs)
    rw [hgq] at this
    exact this.symm
  rw [hqi] at hq hgq
  exact ⟨qs, hq, hgq⟩

/-- The row `create` inserts. -/
theorem create_row_shape (now ttl maxBytes : Nat) (u g : UploadImage)
    (token : String) (st : StoreState)
    (hv : (validImage maxBytes u && validImage maxBytes g) = true) :
    (create now ttl maxBytes u g token true st).1.sessions =
      (st.nextId,
        { user_token := token
          user_image_ref := userRef st.nextId u.ext
          garment_image_ref := garmentRef st.nextId g.ext
          output_image_ref := none
          status := SessionStatus.created
          error_reason := none
          created_at := now
          updated_at := now
          expires_at := now + ttl }) :: st.sessions := by
  simp [create, hv]

/-- Well-formedness holds initially. -/
theorem wf_init : WF initState :=
  ⟨fun p hp => absurd hp (List.not_mem_nil p), List.nodup_nil⟩

/-- Well-formedness is preserved by every operation. -/
theorem wf_step {st st' : StoreState} (hwf : WF st) (hs : Step st st') :
    WF st' := by
  obtain ⟨hlt, hnd⟩ := hwf
  cases hs with
  | create now ttl maxBytes u g token persistOk st =>
    by_cases hv : (validImage maxBytes u && validImage maxBytes g) = true
    · cases persistOk with
      | false =>
        have hse : (create now ttl maxBytes u g token false st).1 =
            { st with nextId := st.nextId + 1 } := by simp [create, hv]
        rw [hse]
        exact ⟨fun p hp => Nat.lt_succ_of_lt (hlt p hp), hnd⟩
      | true =>
        have hse := create_row_shape now ttl maxBytes u g token st hv
        have hni : (create now ttl maxBytes u g token true st).1.nextId =
            st.nextId + 1 := by simp [create, hv]
        constructor
        · intro p hp
          rw [hse] at hp
          rw [hni]
          rcases List.mem_cons.mp hp with hp | hp
          · rw [hp]; exact Nat.lt_succ_self _
          · exact Nat.lt_succ_of_lt (hlt p hp)
        · rw [hse]
          simp only [List.map_cons]
          refine List.nodup_cons.mpr ⟨?_, hnd⟩
          intro hin
          rcases List.mem_map.mp hin with ⟨q, hq, hq1⟩
          have := hlt q hq
          rw [hq1] at this
          exact Nat.lt_irrefl _ this
    · have hv' : (validImage maxBytes u && validImage maxBytes g) = false := by
        revert hv
        cases validImage maxBytes u && validImage maxBytes g <;> simp
      have hse : (create now ttl maxBytes u g token persistOk st).1 = st := by
        simp [create, hv']
      rw [hse]
      exact ⟨hlt, hnd⟩
  | workerStart now id st =>
    unfold workerStart
    refine ⟨?_, ?_⟩
    · intro p hp
      rcases List.mem_map.mp hp with ⟨q, hq, hgq⟩
      have h1 : p.1 = q.1 := by
        rw [← hgq]; dsimp only; split <;> rfl
      rw [h1]
      exact hlt q hq
    · dsimp only
      rw [List.map_map]
      have : st.sessions.map (Prod.fst ∘ fun p =>
          if p.1 == id && p.2.status == SessionStatus.created then
            (p.1, { p.2 with status := SessionStatus.processing,
                             updated_at := now })
          else p) = st.sessions.map Prod.fst := by
        apply List.map_congr_left
        intro a _
        dsimp only [Function.comp]
        split <;> rfl
      rw [this]
      exact hnd
  | workerFinish now id transform st =>
    cases hl : lookupSession id st with
    | none =>
      have hse : workerFinish now id transform st = st := by
        unfold workerFinish; rw [hl]
      rw [hse]; exact ⟨hlt, hnd⟩
    | some s =>
      by_cases hps : (s.status == SessionStatus.processing) = true
      · cases transform with
        | ok out =>
          have hse : (workerFinish now id (Except.ok out) st).sessions =
              st.sessions.map (fun p =>
                if p.1 == id then
                  (p.1, { p.2 with status := SessionStatus.completed,
                                   output_image_ref := some out,
                                   updated_at := now })
                else p) := by
            unfold workerFinish; rw [hl]; simp [hps]
          have hse2 : (workerFinish now id (Except.ok out) st).nextId =
              st.nextId := by
            unfold workerFinish; rw [hl]; simp [hps]
          refine ⟨?_, ?_⟩
          · intro p hp
            rw [hse] at hp
            rw [hse2]
            rcases List.mem_map.mp hp with ⟨q, hq, hgq⟩
            have h1 : p.1 = q.1 := by
              rw [← hgq]; dsimp only; split <;> rfl
            rw [h1]; exact hlt q hq
          · rw [hse, List.map_map]
            have : st.sessions.map (Prod.fst ∘ fun p =>
                if p.1 == id then
                  (p.1, { p.2 with status := SessionStatus.completed,
                                   output_image_ref := some out,
                                   updated_at := now })
                else p) = st.sessions.map Prod.fst := by
              apply List.map_congr_left
              intro a _
              dsimp only [Function.comp]
              split <;> rfl
            rw [this]
            exact hnd
        | error reason =>
          have hse : (workerFinish now id (Except.error reason) st).sessions =
              st.sessions.map (fun p =>
                if p.1 == id then
                  (p.1, { p.2 with status := SessionStatus.failed,
                                   error_reason := some reason,
                                   updated_at := now })
                else p) := by
            unfold workerFinish; rw [hl]; simp [hps]
          have hse2 : (workerFinish now id (Except.error reason) st).nextId =
              st.nextId := by
            unfold workerFinish; rw [hl]; simp [hps]
          refine ⟨?_, ?_⟩
          · intro p hp
            rw [hse] at hp
            rw [hse2]
            rcases List.mem_map.mp hp with ⟨q, hq, hgq⟩
            have h1 : p.1 = q.1 := by
              rw [← hgq]; dsimp only; split <;> rfl
            rw [h1]; exact hlt q hq
          · rw [hse, List.map_map]
            have : st.sessions.map (Prod.fst ∘ fun p =>
                if p.1 == id then
                  (p.1, { p.2 with status := SessionStatus.failed,
                                   error_reason := some reason,
                                   updated_at := now })
                else p) = st.sessions.map Prod.fst := by
              apply List.map_congr_left
              intro a _
              dsimp only [Function.comp]
              split <;> rfl
            rw [this]
            exact hnd
      · have hse : workerFinish now id transform st = st := by
          unfold workerFinish; rw [hl]; simp [hps]
        rw [hse]; exact ⟨hlt, hnd⟩
  | reap now st =>
    constructor
    · intro p hp
      exact hlt p (List.mem_of_mem_filter hp)
    · exact List.Nodup.sublist
        ((List.filter_sublist _).map Prod.fst) hnd

/-- Every reachable state is well-formed. -/
theorem reachable_wf {st : StoreState} (hr : Reachable st) : WF st := by
  induction hr with
  | init => exact wf_init
  | step _ hs ih => exact wf_step ih hs

/-- The output/error invariant holds initially. -/
theorem outErrInv_init : OutErrInv initState :=
  fun p hp => absurd hp (List.not_mem_nil p)

/-- The output/error invariant is preserved by every operation on a
well-formed store. -/
theorem outErrInv_step {st st' : StoreState} (hwf : WF st)
    (hinv : OutErrInv st) (hs : Step st st') : OutErrInv st' := by
  obtain ⟨hlt, hnd⟩ := hwf
  cases hs with
  | create now ttl maxBytes u g token persistOk st =>
    by_cases hv : (validImage maxBytes u && validImage maxBytes g) = true
    · cases persistOk with
      | true =>
        intro p hp
        rw [create_row_shape now ttl maxBytes u g token st hv] at hp
        rcases List.mem_cons.mp hp with h | h
        · rw [h]
          constructor <;> simp
        · exact hinv p h
      | false =>
        intro p hp
        have hse : (create now ttl maxBytes u g token false st).1.sessions =
            st.sessions := by simp [create, hv]
        rw [hse] at hp
        exact hinv p hp
    · have hv' : (validImage maxBytes u && validImage maxBytes g) = false := by
        revert hv
        cases validImage maxBytes u && validImage maxBytes g <;> simp
      intro p hp
      have hse : (create now ttl maxBytes u g token persistOk st).1.sessions =
          st.sessions := by simp [create, hv']
      rw [hse] at hp
      exact hinv p hp
  | workerStart now id st =>
    intro p hp
    have hse : (workerStart now id st).sessions =
        st.sessions.map (fun p =>
          if p.1 == id && p.2.status == SessionStatus.created then
            (p.1, { p.2 with status := SessionStatus.processing,
                             updated_at := now })
          else p) := rfl
    rw [hse] at hp
    rcases List.mem_map.mp hp with ⟨q, hq, hgq⟩
    have hqinv := hinv q hq
    rw [← hgq]
    dsimp only
    split
    · rename_i hcond
      have hqs : q.2.status = SessionStatus.created := by
        have := ((Bool.and_eq_true _ _).mp hcond).2
        simpa using this
      have hout : q.2.output_image_ref = none := by
        by_contra hne
        have := hqinv.1.mp hne
        rw [hqs] at this
        exact SessionStatus.noConfusion this
      have herr : q.2.error_reason = none := by
        by_contra hne
        have := hqinv.2.mp hne
        rw [hqs] at this
        exact SessionStatus.noConfusion this
      constructor
      · simp [hout]
      · simp [herr]
    · exact hqinv
  | workerFinish now id transform st =>
    cases hl : lookupSession id st with
    | none =>
      have hse : workerFinish now id transform st = st := by
        unfold workerFinish; rw [hl]
      rw [hse]
      exact hinv
    | some s =>
      by_cases hps : (s.status == SessionStatus.processing) = true
      · have hsproc : s.status = SessionStatus.processing := by
          simpa using hps
        have hms : (id, s) ∈ st.sessions := lookup_mem hl
        cases transform with
        | ok out =>
          intro p hp
          have hse : (workerFinish now id (Except.ok out) st).sessions =
              st.sessions.map (fun p =>
                if p.1 == id then
                  (p.1, { p.2 with status := SessionStatus.completed,
                                   output_image_ref := some out,
                                   updated_at := now })
                else p) := by
            unfold workerFinish; rw [hl]; simp [hps]
          rw [hse] at hp
          rcases List.mem_map.mp hp with ⟨q, hq, hgq⟩
          have hqinv := hinv q hq
          rw [← hgq]
          dsimp only
          split
          · rename_i hcond
            have hqid : q.1 = id := by simpa using hcond
            have hqs : q.2 = s := by
              apply pair_unique hnd _ hms
              rw [← hqid]
              exact hq
            have herr : q.2.error_reason = none := by
              by_contra hne
              have := hqinv.2.mp hne
              rw [hqs, hsproc] at this
              exact SessionStatus.noConfusion this
            constructor
            · simp
            · simp [herr]
          · exact hqinv
        | error reason =>
          intro p hp
          have hse : (workerFinish now id (Except.error reason) st).sessions =
              st.sessions.map (fun p =>
                if p.1 == id then
                  (p.1, { p.2 with status := SessionStatus.failed,
                                   error_reason := some reason,
                                   updated_at := now })
                else p) := by
            unfold workerFinish; rw [hl]; simp [hps]
          rw [hse] at hp
          rcases List.mem_map.mp hp with ⟨q, hq, hgq⟩
          have hqinv := hinv q hq
          rw [← hgq]
          dsimp only
          split
          · rename_i hcond
            have hqid : q.1 = id := by simpa using hcond
            have hqs : q.2 = s := by
              apply pair_unique hnd _ hms
              rw [← hqid]
              exact hq
            have hout : q.2.output_image_ref = none := by
              by_contra hne
              have := hqinv.1.mp hne
              rw [hqs, hsproc] at this
              exact SessionStatus.noConfusion this
            constructor
            · simp [hout]
            · simp
          · exact hqinv
      · have hse : workerFinish now id transform st = st := by
          unfold workerFinish; rw [hl]; simp [hps]
        rw [hse]
        exact hinv
  | reap now st =>
    intro p hp
    exact hinv p (List.mem_of_mem_filter hp)

/-- The output/error invariant holds in every reachable state. -/
theorem reachable_outErrInv {st : StoreState} (hr : Reachable st) :
    OutErrInv st := by
  induction hr with
  | init => exact outErrInv_init
  | step hprev hs ih => exact outErrInv_step (reachable_wf hprev) ih hs

/-! ### Claims about the frontend upload handlers -/

/-- C8: in `PhotoUpload.handleFileChange` and
`DemoPage.handleHiddenFileChange`, a file larger than `10 * 1024 * 1024`
bytes or whose MIME type does not start with `"image/"` is rejected
silently: `handleFileChange` invokes no callback and
`handleHiddenFileChange` leaves the component state — `userPhoto`,
`userFile`, the localStorage entries, and the pending try-on — exactly
unchanged. -/
theorem upload_reject_silent (f : JsFile) (dataUrlOf : JsFile → String)
    (st : PageState)
    (h : f.size > 10 * 1024 * 1024 ∨ f.type.startsWith "image/" = false) :
    handleFileChange [f] = none ∧
    handleHiddenFileChange [f] dataUrlOf st = st := by
  rcases h with h | h
  · by_cases hs : f.type.startsWith "image/"
    · constructor <;>
        simp [handleFileChange, handleHiddenFileChange, hs, h]
    · constructor <;>
        simp [handleFileChange, handleHiddenFileChange, hs]
  · constructor <;>
      simp [handleFileChange, handleHiddenFileChange, h]

/-- C8 witness: an 11-megabyte image file is rejected by both handlers. -/
theorem upload_reject_silent_witness :
    handleFileChange [⟨"big.png", "image/png", 11 * 1024 * 1024⟩] = none ∧
    handleHiddenFileChange [⟨"big.png", "image/png", 11 * 1024 * 1024⟩]
      (fun _ => "data:...") ⟨none, none, [], none⟩ =
      ⟨none, none, [], none⟩ :=
  upload_reject_silent ⟨"big.png", "image/png", 11 * 1024 * 1024⟩
    (fun _ => "data:...") ⟨none, none, [], none⟩ (Or.inl (by decide))

/-- C9: `DemoPage.processTryOn` updates the results map only when the
polled final status is `"completed"` case-insensitively and
`output_image_url` is non-null; when the status is not completed, the
output URL is missing, or the call threw, the results map is unchanged;
and in every case `processingProduct` ends up `null`. -/
theorem processTryOn_results_spec (productId sessionId : String)
    (now : Int) (outcome : Except String FinalStatus) (st : DemoState) :
    (processTryOn productId sessionId now outcome st).processingProduct
        = none ∧
    ((processTryOn productId sessionId now outcome st).results ≠ st.results →
      ∃ fs, outcome = Except.ok fs ∧ fs.status.toLower = "completed" ∧
        ∃ u, fs.output_image_url = some u) ∧
    (∀ fs, outcome = Except.ok fs →
      (fs.status.toLower ≠ "completed" ∨ fs.output_image_url = none) →
      (processTryOn productId sessionId now outcome st).results
        = st.results) ∧
    (∀ e, outcome = Except.error e →
      (processTryOn productId sessionId now outcome st).results
        = st.results) := by
  cases outcome with
  | error e =>
    refine ⟨rfl, fun hne => absurd rfl hne, ?_, fun _ _ => rfl⟩
    intro fs hfs
    exact absurd hfs (by simp)
  | ok fs =>
    by_cases hc :
        (fs.status.toLower == "completed" && jsTruthy fs.output_image_url)
          = true
    · have hcond := hc
      rw [Bool.and_eq_true] at hcond
      have hlow : fs.status.toLower = "completed" :=
        by simpa using hcond.1
      have hurl : ∃ u, fs.output_image_url = some u := by
        cases hu : fs.output_image_url with
        | none => rw [hu] at hcond; simp [jsTruthy] at hcond
        | some u => exact ⟨u, rfl⟩
      refine ⟨?_, fun _ => ⟨fs, rfl, hlow, hurl⟩, ?_, ?_⟩
      · simp [processTryOn, hc]
      · intro fs' hfs' hbad
        cases hfs'
        rcases hbad with hbad | hbad
        · exact absurd hlow hbad
        · rcases hurl with ⟨u, hu⟩
          rw [hu] at hbad
          exact absurd hbad (by simp)
      · intro e he
        exact absurd he (by simp)
    · refine ⟨?_, ?_, ?_, ?_⟩
      · simp [processTryOn, hc]
      · intro hne
        exact absurd (by simp [processTryOn, hc]) hne
      · intro fs' hfs' _
        simp [processTryOn, hc]
      · intro e he
        exact absurd he (by simp)

/-- C9 witness: a polled `"failed"` status leaves the results map
unchanged and resets `processingProduct`. -/
theorem processTryOn_results_spec_witness :
    (processTryOn "p1" "s1" 0
        (Except.ok ⟨"failed", none, some "err"⟩)
        ⟨[], some "p1"⟩).processingProduct = none ∧
    (processTryOn "p1" "s1" 0
        (Except.ok ⟨"failed", none, some "err"⟩)
        ⟨[], some "p1"⟩).results = [] :=
  by
  have h := processTryOn_results_spec "p1" "s1" 0
    (Except.ok ⟨"failed", none, some "err"⟩) ⟨[], some "p1"⟩
  exact ⟨h.1, h.2.2.1 ⟨"failed", none, some "err"⟩ rfl (Or.inr rfl)⟩

/-- C10: the mount-time restore keeps exactly the saved entries whose
timestamp is strictly less than 24 hours before now, and a corrupt or
absent saved value yields the empty results map. -/
theorem loadResults_spec (parsed : List (String × ResultEntry)) (now : Int)
    (k : String) (v : ResultEntry) (e : String) :
    ((k, v) ∈ loadResults (some (Except.ok parsed)) now ↔
      (k, v) ∈ parsed ∧ now - v.timestamp < 24 * 60 * 60 * 1000) ∧
    loadResults (some (Except.error e)) now = [] ∧
    loadResults none now = [] := by
  refine ⟨?_, rfl, rfl⟩
  simp [loadResults, List.mem_filter]

/-- C10 witness: a 1-hour-old entry is restored, a 25-hour-old one is
discarded, and a corrupt saved value yields the empty map. -/
theorem loadResults_spec_witness :
    ((("p1", ⟨"u", "s", 90000000⟩) : String × ResultEntry) ∈
      loadResults (some (Except.ok
        [("p1", ⟨"u", "s", 90000000⟩), ("p2", ⟨"u2", "s2", 0⟩)]))
        93600000 ↔
      (("p1", (⟨"u", "s", 90000000⟩ : ResultEntry)) ∈
        [(("p1", ⟨"u", "s", 90000000⟩) : String × ResultEntry),
         ("p2", ⟨"u2", "s2", 0⟩)] ∧
        (93600000 : Int) - 90000000 < 24 * 60 * 60 * 1000)) ∧
    loadResults (some (Except.error "bad json")) 93600000 = [] ∧
    loadResults none 93600000 = [] :=
  loadResults_spec
    [("p1", ⟨"u", "s", 90000000⟩), ("p2", ⟨"u2", "s2", 0⟩)]
    93600000 "p1" ⟨"u", "s", 90000000⟩ "bad json"

/-! ### Claims about the backend lifecycle -/

/-- C3: a `create` call where either image is oversized, has an
extension outside the allow-list, or fails to decode returns a
`ValidationError` synchronously with the store exactly as before — no
session row created, no asset persisted. -/
theorem create_validation_error (now ttl : Nat) (u g : UploadImage)
    (token : String) (persistOk : Bool) (st : StoreState)
    (h : defaultMaxBytes < u.size ∨ allowedExts.contains u.ext = false ∨
      u.decodable = false ∨ defaultMaxBytes < g.size ∨
      allowedExts.contains g.ext = false ∨ g.decodable = false) :
    create now ttl defaultMaxBytes u g token persistOk st =
      (st, Except.error CreateError.validationError) := by
  have hv : (validImage defaultMaxBytes u &&
      validImage defaultMaxBytes g) = false := by
    rcases h with h | h | h | h | h | h
    · simp [validImage, Nat.not_le.mpr h]
    · have h2 : ¬ u.ext ∈ allowedExts := by simpa using h
      simp [validImage, h2]
    · simp [validImage, h]
    · simp [validImage, Nat.not_le.mpr h]
    · have h2 : ¬ g.ext ∈ allowedExts := by simpa using h
      simp [validImage, h2]
    · simp [validImage, h]
  simp [create, hv]

/-- C3 witness: an 11-megabyte jpg upload is rejected with the store
untouched. -/
theorem create_validation_error_witness :
    create 0 24 defaultMaxBytes ⟨11 * 1024 * 1024, "jpg", true⟩
      ⟨1024, "jpg", true⟩ "u1" true initState =
      (initState, Except.error CreateError.validationError) :=
  create_validation_error 0 24 ⟨11 * 1024 * 1024, "jpg", true⟩
    ⟨1024, "jpg", true⟩ "u1" true initState (Or.inl (by decide))

/-- C4: when validation succeeds but asset persistence fails after the
tentative row write, the tentative row is removed before `create`
returns — the session rows and the stored assets are exactly as before,
and the caller sees the storage error, so the store never holds a
`Created` row whose input assets are absent. -/
theorem create_persist_failure_atomic (now ttl maxBytes : Nat)
    (u g : UploadImage) (token : String) (st : StoreState)
    (hu : validImage maxBytes u = true) (hg : validImage maxBytes g = true) :
    (create now ttl maxBytes u g token false st).1.sessions = st.sessions ∧
    (create now ttl maxBytes u g token false st).1.assets = st.assets ∧
    (create now ttl maxBytes u g token false st).2 =
      Except.error CreateError.storageError := by
  simp [create, hu, hg]

/-- C4 witness: a valid create whose asset write fails leaves the empty
store with no row and no asset. -/
theorem create_persist_failure_atomic_witness :
    validImage defaultMaxBytes ⟨1024, "jpg", true⟩ = true ∧
    (create 0 24 defaultMaxBytes ⟨1024, "jpg", true⟩ ⟨2048, "png", true⟩
      "u1" false initState).1.sessions = initState.sessions ∧
    (create 0 24 defaultMaxBytes ⟨1024, "jpg", true⟩ ⟨2048, "png", true⟩
      "u1" false initState).1.assets = initState.assets :=
  by
  have h := create_persist_failure_atomic 0 24 defaultMaxBytes
    ⟨1024, "jpg", true⟩ ⟨2048, "png", true⟩ "u1" initState
    (by decide) (by decide)
  exact ⟨by decide, h.1, h.2.1⟩

/-- C6: `get` returns the seven-field view for an existing id and
`NotFoundError` for an unknown one; `progress_message` is determined by
`status` alone; and after a reaper run any id that still resolves is
non-expired — so a reaped (expired) session id yields `NotFoundError`. -/
theorem get_view_spec (id : Nat) (st : StoreState) (now : Nat) :
    (lookupSession id st = none →
      get id st = Except.error GetError.notFound) ∧
    (∀ s, lookupSession id st = some s →
      get id st = Except.ok
        { id := id
          status := s.status
          user_image_url := s.user_image_ref
          garment_image_url := s.garment_image_ref
          output_image_url := s.output_image_ref
          error_reason := s.error_reason
          progress_message := progressMessage s.status }) ∧
    (∀ s t : Session, s.status = t.status →
      (viewOf id s).progress_message = (viewOf id t).progress_message) ∧
    (∀ s, lookupSession id (reap now st) = some s →
      expiredAt now s = false) := by
  refine ⟨?_, ?_, ?_, ?_⟩
  · intro h; simp [get, h]
  · intro s h; simp [get, h, viewOf]
  · intro s t h; simp [viewOf, h]
  · intro s h
    unfold lookupSession at h
    cases hf : (reap now st).sessions.find? (fun p => p.1 == id) with
    | none => rw [hf] at h; simp at h
    | some p =>
      rw [hf] at h
      simp only [Option.map] at h
      have hps : p.2 = s := Option.some.inj h
      have hmem : p ∈ st.sessions.filter (fun q => !expiredAt now q.2) :=
        List.mem_of_find?_eq_some hf
      have hq := (List.mem_filter.mp hmem).2
      rw [hps] at hq
      simpa using hq

/-- C6 witness: the view of a completed session carries the fixed
completed-progress message, and an id absent from the empty store is
`NotFoundError`. -/
theorem get_view_spec_witness :
    get 7 initState = Except.error GetError.notFound ∧
    (viewOf 0
        ⟨"u1", "a", "b", some "c", SessionStatus.completed, none, 0, 1, 24⟩
      ).progress_message =
      (viewOf 0
        ⟨"u2", "d", "e", some "f", SessionStatus.completed, none, 5, 6, 29⟩
      ).progress_message :=
  by
  have h0 := get_view_spec 7 initState 0
  have h1 := get_view_spec 0 initState 0
  exact ⟨h0.1 rfl,
    h1.2.2.1
      ⟨"u1", "a", "b", some "c", SessionStatus.completed, none, 0, 1, 24⟩
      ⟨"u2", "d", "e", some "f", SessionStatus.completed, none, 5, 6, 29⟩
      rfl⟩

/-- C7: when the primary networked backend is unavailable at startup the
process still starts — `startup` always returns a backend, the fallback
embedded engine when the primary attempt failed — and the health query
reports that backend as connected. -/
theorem fallback_startup_spec (primaryAvailable : Bool) :
    (∃ b, startup primaryAvailable = Except.ok b) ∧
    startup false = Except.ok BackendKind.sqlite ∧
    (selectBackend primaryAvailable = BackendKind.postgresql ↔
      primaryAvailable = true) ∧
    healthOf (selectBackend false) =
      { backend_kind := BackendKind.sqlite, connected := true } := by
  refine ⟨⟨selectBackend primaryAvailable, rfl⟩, rfl, ?_, rfl⟩
  cases primaryAvailable <;> simp [selectBackend]

/-- C5: one reaper run removes every expired session row together with
all of its asset references (with unique ids the expired id no longer
resolves at all), and a second reaper run over the same state changes
nothing — reaper runs are idempotent. -/
theorem reaper_spec (now : Nat) (st : StoreState) (id : Nat) (s : Session)
    (hmem : (id, s) ∈ st.sessions) (hexp : expiredAt now s = true) :
    (id, s) ∉ (reap now st).sessions ∧
    (∀ r ∈ sessionRefs s, r ∉ (reap now st).assets) ∧
    ((st.sessions.map Prod.fst).Nodup →
      lookupSession id (reap now st) = none) ∧
    reap now (reap now st) = reap now st := by
  have hdead : ∀ r ∈ sessionRefs s,
      r ∈ (st.sessions.filter (fun p => expiredAt now p.2)).flatMap
        (fun p => sessionRefs p.2) := by
    intro r hr
    exact List.mem_flatMap.mpr
      ⟨(id, s), List.mem_filter.mpr ⟨hmem, hexp⟩, hr⟩
  refine ⟨?_, ?_, ?_, ?_⟩
  · intro hin
    have h2 := (List.mem_filter.mp hin).2
    rw [hexp] at h2
    simp at h2
  · intro r hr hin
    have h2 := (List.mem_filter.mp hin).2
    have h3 : r ∈ (st.sessions.filter (fun p => expiredAt now p.2)).flatMap
        (fun p => sessionRefs p.2) := hdead r hr
    have h4 : ¬ r ∈ (st.sessions.filter (fun p => expiredAt now p.2)).flatMap
        (fun p => sessionRefs p.2) := by simpa using h2
    exact h4 h3
  · intro hnd
    unfold lookupSession
    cases hf : (reap now st).sessions.find? (fun p => p.1 == id) with
    | none => rfl
    | some p =>
      exfalso
      have hpf : p ∈ st.sessions.filter (fun q => !expiredAt now q.2) :=
        List.mem_of_find?_eq_some hf
      have hpmem : p ∈ st.sessions := (List.mem_filter.mp hpf).1
      have hpexp := (List.mem_filter.mp hpf).2
      have hpid : p.1 = id := by
        have := List.find?_some hf
        simpa using this
      have hpeq : p = (id, s) :=
        List.inj_on_of_nodup_map hnd hpmem hmem (by simpa using hpid)
      rw [hpeq] at hpexp
      rw [hexp] at hpexp
      simp at hpexp
  · have hsess : (reap now st).sessions.filter
        (fun p => !expiredAt now p.2) = (reap now st).sessions := by
      apply List.filter_eq_self.mpr
      intro p hp
      exact (List.mem_filter.mp hp).2
    have hexp2 : (reap now st).sessions.filter
        (fun p => expiredAt now p.2) = [] := by
      apply List.filter_eq_nil_iff.mpr
      intro p hp
      have h2 := (List.mem_filter.mp hp).2
      simpa using h2
    have hassets : (reap now st).assets.filter (fun r =>
        !(((reap now st).sessions.filter
            (fun p => expiredAt now p.2)).flatMap
          (fun p => sessionRefs p.2)).contains r) = (reap now st).assets := by
      apply List.filter_eq_self.mpr
      intro r _
      rw [hexp2]
      rfl
    show StoreState.mk _ _ _ = _
    rw [hsess, hassets]

/-- C5 witness: a store holding one session expired at instant 10 is
emptied of that row and its assets by one reaper run, and a second run
is a no-op. -/
theorem reaper_spec_witness :
    ((0, (⟨"u1", "users/0_user.jpg", "garments/0_garment.jpg",
        some "outputs/0_output.jpg", SessionStatus.completed, none,
        0, 3, 5⟩ : Session)) ∉
      (reap 10
        ⟨[(0, ⟨"u1", "users/0_user.jpg", "garments/0_garment.jpg",
            some "outputs/0_output.jpg", SessionStatus.completed, none,
            0, 3, 5⟩)],
          ["users/0_user.jpg", "garments/0_garment.jpg",
            "outputs/0_output.jpg"], 1⟩).sessions) ∧
    lookupSession 0
      (reap 10
        ⟨[(0, ⟨"u1", "users/0_user.jpg", "garments/0_garment.jpg",
            some "outputs/0_output.jpg", SessionStatus.completed, none,
            0, 3, 5⟩)],
          ["users/0_user.jpg", "garments/0_garment.jpg",
            "outputs/0_output.jpg"], 1⟩) = none ∧
    reap 10 (reap 10
        ⟨[(0, ⟨"u1", "users/0_user.jpg", "garments/0_garment.jpg",
            some "outputs/0_output.jpg", SessionStatus.completed, none,
            0, 3, 5⟩)],
          ["users/0_user.jpg", "garments/0_garment.jpg",
            "outputs/0_output.jpg"], 1⟩) =
      reap 10
        ⟨[(0, ⟨"u1", "users/0_user.jpg", "garments/0_garment.jpg",
            some "outputs/0_output.jpg", SessionStatus.completed, none,
            0, 3, 5⟩)],
          ["users/0_user.jpg", "garments/0_garment.jpg",
            "outputs/0_output.jpg"], 1⟩ :=
  by
  have h := reaper_spec 10
    ⟨[(0, ⟨"u1", "users/0_user.jpg", "garments/0_garment.jpg",
        some "outputs/0_output.jpg", SessionStatus.completed, none,
        0, 3, 5⟩)],
      ["users/0_user.jpg", "garments/0_garment.jpg",
        "outputs/0_output.jpg"], 1⟩
    0 ⟨"u1", "users/0_user.jpg", "garments/0_garment.jpg",
        some "outputs/0_output.jpg", SessionStatus.completed, none,
        0, 3, 5⟩
    (List.mem_singleton.mpr rfl) (by decide)
  exact ⟨h.1, h.2.2.1 (by decide), h.2.2.2⟩

/-- C1: across any operation on a reachable store — create, worker
pickup, worker terminal write, reaper run — the status of a session either
stays put or follows one edge of
`Created → Processing → {Completed, Failed}`: never backward, never
skipping `Processing`, and a `Completed` or `Failed` session never
changes status again; every observable status is one of the four enum
values (the status type has no others). -/
theorem status_transitions_spec {st st' : StoreState} (hr : Reachable st)
    (hs : Step st st') (id : Nat) (a b : Session)
    (ha : lookupSession id st = some a)
    (hb : lookupSession id st' = some b) :
    (b.status = SessionStatus.created ∨
      b.status = SessionStatus.processing ∨
      b.status = SessionStatus.completed ∨
      b.status = SessionStatus.failed) ∧
    (a.status = b.status ∨
      (a.status = SessionStatus.created ∧
        b.status = SessionStatus.processing) ∨
      (a.status = SessionStatus.processing ∧
        (b.status = SessionStatus.completed ∨
          b.status = SessionStatus.failed))) := by
  obtain ⟨hlt, hnd⟩ := reachable_wf hr
  have hma : (id, a) ∈ st.sessions := lookup_mem ha
  have hmb : (id, b) ∈ st'.sessions := lookup_mem hb
  refine ⟨by cases b.status <;> simp, ?_⟩
  cases hs with
  | create now ttl maxBytes u g token persistOk st =>
    by_cases hv : (validImage maxBytes u && validImage maxBytes g) = true
    · cases persistOk with
      | true =>
        rw [create_row_shape now ttl maxBytes u g token st hv] at hmb
        rcases List.mem_cons.mp hmb with h | h
        · exfalso
          have hid : id = st.nextId := congrArg Prod.fst h
          have hbound := hlt (id, a) hma
          rw [hid] at hbound
          exact Nat.lt_irrefl _ hbound
        · have hba : b = a := pair_unique hnd h hma
          exact Or.inl (by rw [hba])
      | false =>
        have hse : (create now ttl maxBytes u g token false st).1.sessions =
            st.sessions := by simp [create, hv]
        rw [hse] at hmb
        have hba : b = a := pair_unique hnd hmb hma
        exact Or.inl (by rw [hba])
    · have hv' : (validImage maxBytes u && validImage maxBytes g) = false := by
        revert hv
        cases validImage maxBytes u && validImage maxBytes g <;> simp
      have hse : (create now ttl maxBytes u g token persistOk st).1.sessions =
          st.sessions := by simp [create, hv']
      rw [hse] at hmb
      have hba : b = a := pair_unique hnd hmb hma
      exact Or.inl (by rw [hba])
  | workerStart now wid st =>
    have hse : (workerStart now wid st).sessions =
        st.sessions.map (fun p =>
          if p.1 == wid && p.2.status == SessionStatus.created then
            (p.1, { p.2 with status := SessionStatus.processing,
                             updated_at := now })
          else p) := rfl
    rw [hse] at hmb
    rcases mem_map_keyfix (fun p => by dsimp only; split <;> rfl) hmb with
      ⟨a2, ha2, hga2⟩
    have haa : a2 = a := pair_unique hnd ha2 hma
    rw [haa] at hga2
    dsimp only at hga2
    split at hga2
    · rename_i hcond
      have hacr : a.status = SessionStatus.created := by
        have := ((Bool.and_eq_true _ _).mp hcond).2
        simpa using this
      have hbv : ({ a with
              status := SessionStatus.processing,
              updated_at := now } : Session) = b := by
        injection hga2 with h1 h2
      refine Or.inr (Or.inl ⟨hacr, ?_⟩)
      rw [← hbv]
    · have hab : a = b := by
        injection hga2 with h1 h2
      exact Or.inl (by rw [hab])
  | workerFinish now wid transform st =>
    cases hl : lookupSession wid st with
    | none =>
      have hse : workerFinish now wid transform st = st := by
        unfold workerFinish; rw [hl]
      rw [hse] at hmb
      have hba : b = a := pair_unique hnd hmb hma
      exact Or.inl (by rw [hba])
    | some s =>
      by_cases hps : (s.status == SessionStatus.processing) = true
      · have hsproc : s.status = SessionStatus.processing := by
          simpa using hps
        have hms : (wid, s) ∈ st.sessions := lookup_mem hl
        cases transform with
        | ok out =>
          have hse : (workerFinish now wid (Except.ok out) st).sessions =
              st.sessions.map (fun p =>
                if p.1 == wid then
                  (p.1, { p.2 with status := SessionStatus.completed,
                                   output_image_ref := some out,
                                   updated_at := now })
                else p) := by
            unfold workerFinish; rw [hl]; simp [hps]
          rw [hse] at hmb
          rcases mem_map_keyfix (fun p => by dsimp only; split <;> rfl)
            hmb with ⟨a2, ha2, hga2⟩
          have haa : a2 = a := pair_unique hnd ha2 hma
          rw [haa] at hga2
          dsimp only at hga2
          split at hga2
          · rename_i hcond
            have hid : id = wid := by simpa using hcond
            have has : a = s := by
              apply pair_unique hnd _ hms
              rw [← hid]
              exact hma
            have hbv : ({ a with
                    status := SessionStatus.completed,
                    output_image_ref := some out,
                    updated_at := now } : Session) = b := by
              injection hga2 with h1 h2
            refine Or.inr (Or.inr ⟨by rw [has, hsproc], Or.inl ?_⟩)
            rw [← hbv]
          · have hab : a = b := by
              injection hga2 with h1 h2
            exact Or.inl (by rw [hab])
        | error reason =>
          have hse : (workerFinish now wid (Except.error reason) st).sessions =
              st.sessions.map (fun p =>
                if p.1 == wid then
                  (p.1, { p.2 with status := SessionStatus.failed,
                                   error_reason := some reason,
                                   updated_at := now })
                else p) := by
            unfold workerFinish; rw [hl]; simp [hps]
          rw [hse] at hmb
          rcases mem_map_keyfix (fun p => by dsimp only; split <;> rfl)
            hmb with ⟨a2, ha2, hga2⟩
          have haa : a2 = a := pair_unique hnd ha2 hma
          rw [haa] at hga2
          dsimp only at hga2
          split at hga2
          · rename_i hcond
            have hid : id = wid := by simpa using hcond
            have has : a = s := by
              apply pair_unique hnd _ hms
              rw [← hid]
              exact hma
            have hbv : ({ a with
                    status := SessionStatus.failed,
                    error_reason := some reason,
                    updated_at := now } : Session) = b := by
              injection hga2 with h1 h2
            refine Or.inr (Or.inr ⟨by rw [has, hsproc], Or.inr ?_⟩)
            rw [← hbv]
          · have hab : a = b := by
              injection hga2 with h1 h2
            exact Or.inl (by rw [hab])
      · have hse : workerFinish now wid transform st = st := by
          unfold workerFinish; rw [hl]; simp [hps]
        rw [hse] at hmb
        have hba : b = a := pair_unique hnd hmb hma
        exact Or.inl (by rw [hba])
  | reap now st =>
    have hmb2 : (id, b) ∈ st.sessions := List.mem_of_mem_filter hmb
    have hba : b = a := pair_unique hnd hmb2 hma
    exact Or.inl (by rw [hba])

/-- C1 witness: the worker picking up the freshly created session 0
moves it `Created → Processing`, an allowed edge. -/
theorem status_transitions_spec_witness :
    (((⟨"u1", userRef 0 "jpg", garmentRef 0 "png", none,
        SessionStatus.processing, none, 0, 5, 0 + 86400⟩ : Session).status
          = SessionStatus.created ∨
      (⟨"u1", userRef 0 "jpg", garmentRef 0 "png", none,
        SessionStatus.processing, none, 0, 5, 0 + 86400⟩ : Session).status
          = SessionStatus.processing ∨
      (⟨"u1", userRef 0 "jpg", garmentRef 0 "png", none,
        SessionStatus.processing, none, 0, 5, 0 + 86400⟩ : Session).status
          = SessionStatus.completed ∨
      (⟨"u1", userRef 0 "jpg", garmentRef 0 "png", none,
        SessionStatus.processing, none, 0, 5, 0 + 86400⟩ : Session).status
          = SessionStatus.failed) ∧
     ((⟨"u1", userRef 0 "jpg", garmentRef 0 "png", none,
        SessionStatus.created, none, 0, 0, 0 + 86400⟩ : Session).status =
      (⟨"u1", userRef 0 "jpg", garmentRef 0 "png", none,
        SessionStatus.processing, none, 0, 5, 0 + 86400⟩ : Session).status ∨
      ((⟨"u1", userRef 0 "jpg", garmentRef 0 "png", none,
        SessionStatus.created, none, 0, 0, 0 + 86400⟩ : Session).status
          = SessionStatus.created ∧
       (⟨"u1", userRef 0 "jpg", garmentRef 0 "png", none,
        SessionStatus.processing, none, 0, 5, 0 + 86400⟩ : Session).status
          = SessionStatus.processing) ∨
      ((⟨"u1", userRef 0 "jpg", garmentRef 0 "png", none,
        SessionStatus.created, none, 0, 0, 0 + 86400⟩ : Session).status
          = SessionStatus.processing ∧
       ((⟨"u1", userRef 0 "jpg", garmentRef 0 "png", none,
        SessionStatus.processing, none, 0, 5, 0 + 86400⟩ : Session).status
          = SessionStatus.completed ∨
        (⟨"u1", userRef 0 "jpg", garmentRef 0 "png", none,
        SessionStatus.processing, none, 0, 5, 0 + 86400⟩ : Session).status
          = SessionStatus.failed)))) :=
  status_transitions_spec
    (Reachable.step Reachable.init
      (Step.create 0 86400 defaultMaxBytes ⟨1024, "jpg", true⟩
        ⟨2048, "png", true⟩ "u1" true initState))
    (Step.workerStart 5 0
      (create 0 86400 defaultMaxBytes ⟨1024, "jpg", true⟩
        ⟨2048, "png", true⟩ "u1" true initState).1)
    0
    ⟨"u1", userRef 0 "jpg", garmentRef 0 "png", none,
      SessionStatus.created, none, 0, 0, 0 + 86400⟩
    ⟨"u1", userRef 0 "jpg", garmentRef 0 "png", none,
      SessionStatus.processing, none, 0, 5, 0 + 86400⟩
    rfl rfl

/-- C2: in every reachable store state, every session has
`output_image_ref` non-null exactly when its status is `Completed` and
`error_reason` non-null exactly when its status is `Failed` — so
`Created`/`Processing` sessions have both fields null, and the
terminal worker write sets the status and the corresponding field in the
one atomic update. -/
theorem output_error_fields_spec {st : StoreState} (hr : Reachable st)
    (id : Nat) (s : Session) (h : lookupSession id st = some s) :
    (s.output_image_ref ≠ none ↔ s.status = SessionStatus.completed) ∧
    (s.error_reason ≠ none ↔ s.status = SessionStatus.failed) :=
  reachable_outErrInv hr (id, s) (lookup_mem h)

/-- C2 witness: the freshly created session 0 has both fields null and
a non-terminal status. -/
theorem output_error_fields_spec_witness :
    (((⟨"u1", userRef 0 "jpg", garmentRef 0 "png", none,
        SessionStatus.created, none, 0, 0, 0 + 86400⟩ : Session
        ).output_image_ref ≠ none ↔
      (⟨"u1", userRef 0 "jpg", garmentRef 0 "png", none,
        SessionStatus.created, none, 0, 0, 0 + 86400⟩ : Session).status =
        SessionStatus.completed) ∧
     ((⟨"u1", userRef 0 "jpg", garmentRef 0 "png", none,
        SessionStatus.created, none, 0, 0, 0 + 86400⟩ : Session
        ).error_reason ≠ none ↔
      (⟨"u1", userRef 0 "jpg", garmentRef 0 "png", none,
        SessionStatus.created, none, 0, 0, 0 + 86400⟩ : Session).status =
        SessionStatus.failed)) :=
  output_error_fields_spec
    (Reachable.step Reachable.init
      (Step.create 0 86400 defaultMaxBytes ⟨1024, "jpg", true⟩
        ⟨2048, "png", true⟩ "u1" true initState))
    0
    ⟨"u1", userRef 0 "jpg", garmentRef 0 "png", none,
      SessionStatus.created, none, 0, 0, 0 + 86400⟩
    rfl

end TryOnAI
